import Mathlib

/-!
Verification of the csvcombiner repository (src/csvcombiner.py) against its
natural-language specification.

The embedding below models the pandas DataFrames manipulated by the script as
lists of columns and rows of optional string cells (`none` plays the role of
NaN / a missing value).  Each Python helper of the source file is translated
to a Lean function of the same name:

* `read_single_csv`      — lines 29-39 (parse one CSV, stamp `source_file`)
* `process_zip_file`     — lines 41-64 (filter and read archive members)
* `process_uploaded_files` — lines 66-99 (dispatch on suffix, `pd.concat`)
* `convert_df_to_csv`    — lines 101-106 (`df.to_csv(index=False)`)
* `mainTransforms`       — lines 186-212, the display/transform block of
  `main` (column pruning, duplicate removal, sort)

`pd.read_csv` and `zipfile.ZipFile` act on raw bytes; their outcomes are
represented abstractly: an uploaded byte stream carries the result of
attempting to parse it as a CSV (`Except String DataFrame`) and the result of
attempting to open it as a ZIP archive (`Except String (List ZipEntry)`).
Every `st.error` / `st.warning` / `st.info` call site of the source is
represented by one constructor of the `Msg` type, so that the diagnostics a
run produces are an observable output.
-/

namespace CsvCombiner

/-- A cell of a table: a string value or NaN (`none`), as in a pandas frame
read from CSV text. -/
abbrev Cell := Option String

/-- A pandas DataFrame: an ordered list of column names and an ordered list of
rows; each row lists its cells in column order. -/
structure DataFrame where
  columns : List String
  rows : List (List Cell)
deriving DecidableEq

/-- One diagnostic per `st.error` / `st.warning` / `st.info` call site of the
source file. -/
inductive Msg where
  | errorReadingFile (filename : String) (cause : String)
  | noCsvInZip (zipName : String)
  | badZipFile (zipName : String)
  | skippedUnsupported (filename : String)
  | droppedColumns (count : Nat) (threshold : Nat)
  | removedDuplicates (count : Nat)
  | couldNotSort (column : String)
deriving DecidableEq

/-- A member of a ZIP archive: its entry path and the outcome of parsing its
byte stream as a CSV. -/
structure ZipEntry where
  filename : String
  asCsv : Except String DataFrame

/-- An uploaded file: its name, the outcome `pd.read_csv` would give on its
bytes, and the outcome `zipfile.ZipFile` would give on its bytes. -/
structure UploadedFile where
  name : String
  asCsv : Except String DataFrame
  asZip : Except String (List ZipEntry)

/-- The pandas `join` argument selected in the sidebar: `'outer'` or
`'inner'`. -/
inductive JoinStrategy where
  | outer
  | inner
deriving DecidableEq

/-- Does the character list `s` start with `pre`?  (Python `str.startswith`,
comparing code points; defined on `List Char` so that it evaluates by
reduction.) -/
def listStartsWith : List Char → List Char → Bool
  | [], _ => true
  | _ :: _, [] => false
  | a :: as, b :: bs => a == b && listStartsWith as bs

/-- Python `str.startswith` on strings. -/
def strStartsWith (s pre : String) : Bool :=
  listStartsWith pre.data s.data

/-- Python `str.endswith` on strings: the reversed text starts with the
reversed suffix. -/
def strEndsWith (s sfx : String) : Bool :=
  listStartsWith sfx.data.reverse s.data.reverse

/-- Python `str.lower` (ASCII range, which covers the file names at stake). -/
def strToLower (s : String) : String :=
  ⟨s.data.map Char.toLower⟩

/-- Lexicographic strict comparison of code-point lists: how Python compares
the strings a pandas object column holds. -/
def charListLt : List Char → List Char → Bool
  | [], [] => false
  | [], _ :: _ => true
  | _ :: _, [] => false
  | a :: as, b :: bs =>
    if a.toNat < b.toNat then true
    else if b.toNat < a.toNat then false
    else charListLt as bs

/-- Non-strict string comparison derived from `charListLt`. -/
def strLe (a b : String) : Bool :=
  !(charListLt b.data a.data)

/-- Value of column `c` in row `r` of a table with columns `cols`: the cell
paired with the first occurrence of `c`, or `none` when the column is absent
(pandas would raise there; we only use this total accessor to observe rows).
-/
def getCell (cols : List String) (r : List Cell) (c : String) : Cell :=
  (List.lookup c (cols.zip r)).getD none

/-- Overwrite, inside one row, every cell whose column is named `c` with `v`
(`df[c] = v` on an existing column). -/
def setCol (cols : List String) (c : String) (v : Cell) (r : List Cell) : List Cell :=
  (cols.zip r).map (fun p => if p.1 = c then v else p.2)

/-- `df[c] = v` with a scalar `v`: overwrite the column in place when it
exists, otherwise append it as the last column, broadcasting `v` to every
row. -/
def setColumn (df : DataFrame) (c : String) (v : Cell) : DataFrame :=
  if c ∈ df.columns then
    { columns := df.columns, rows := df.rows.map (setCol df.columns c v) }
  else
    { columns := df.columns ++ [c], rows := df.rows.map (fun r => r ++ [v]) }

/-- Well-formedness invariant of a parsed table: every row has exactly one
cell per declared column (what `pd.read_csv` guarantees). -/
def WellFormed (df : DataFrame) : Prop :=
  ∀ r ∈ df.rows, r.length = df.columns.length

/-- Lines 29-39: read one CSV, add the `source_file` column, and turn any
parse failure into an `st.error` diagnostic plus a `None` result. -/
def read_single_csv (parsed : Except String DataFrame) (filename : String) :
    Option DataFrame × List Msg :=
  match parsed with
  | .ok df => (some (setColumn df "source_file" (some filename)), [])
  | .error e => (none, [Msg.errorReadingFile filename e])

/-- Split a character list at every occurrence of `sep` (`str.split`). -/
def splitOnChar (sep : Char) : List Char → List (List Char)
  | [] => [[]]
  | c :: cs =>
    match splitOnChar sep cs, c == sep with
    | r, true => [] :: r
    | [], false => [[c]]
    | h :: t, false => (c :: h) :: t

/-- `os.path.basename` on a POSIX path: the component after the last `/`. -/
def basename (path : String) : String :=
  ⟨(splitOnChar '/' path.data).getLastD path.data⟩

/-- Line 48: the archive members passed on to the reader — entry name ends
with `".csv"` (case-sensitively) and does not start with `"__MACOSX/"`. -/
def zipCandidates (entries : List ZipEntry) : List ZipEntry :=
  entries.filter
    (fun e => strEndsWith e.filename ".csv" && !(strStartsWith e.filename "__MACOSX/"))

/-- One iteration of the archive loop (lines 54-58): read the member under
its composite name and append the frame (when parsing succeeded) and any
diagnostics. -/
def zipStep (zipName : String) (acc : List DataFrame × List Msg) (e : ZipEntry) :
    List DataFrame × List Msg :=
  match read_single_csv e.asCsv (zipName ++ " -> " ++ basename e.filename) with
  | (some df, msgs) => (acc.1 ++ [df], acc.2 ++ msgs)
  | (none, msgs) => (acc.1, acc.2 ++ msgs)

/-- Lines 41-64: open the archive, filter its members, read each candidate
under the composite name `zipName ++ " -> " ++ basename entry`, and collect
the successfully parsed frames together with all diagnostics. -/
def process_zip_file (zipName : String) (asZip : Except String (List ZipEntry)) :
    List DataFrame × List Msg :=
  match asZip with
  | .error _ => ([], [Msg.badZipFile zipName])
  | .ok entries =>
    let csv_files := zipCandidates entries
    if csv_files.isEmpty then
      ([], [Msg.noCsvInZip zipName])
    else
      csv_files.foldl (zipStep zipName) ([], [])

/-- Keep the first occurrence of every element, preserving order (used both
for `drop_duplicates` and to characterise first-seen column order). -/
def keepFirsts {α : Type} [DecidableEq α] (xs : List α) : List α :=
  xs.foldl (fun acc a => if a ∈ acc then acc else acc ++ [a]) []

/-- Ordered insertion of the elements of `cs` at the end of `acc`, skipping
those already present. -/
def unionInto (acc : List String) (cs : List String) : List String :=
  cs.foldl (fun acc2 c => if c ∈ acc2 then acc2 else acc2 ++ [c]) acc

/-- Column index of `pd.concat(..., join='outer', sort=False)`: the union of
the input column sets in order of first appearance across the inputs. -/
def unionCols (dfs : List DataFrame) : List String :=
  dfs.foldl (fun acc df => unionInto acc df.columns) []

/-- Column index of `pd.concat(..., join='inner')`: successive intersection,
starting from the first frame's columns and keeping their order. -/
def interCols (dfs : List DataFrame) : List String :=
  match dfs with
  | [] => []
  | d :: rest =>
    rest.foldl (fun acc df => acc.filter (fun c => df.columns.contains c)) d.columns

/-- The column index `pd.concat` produces for the given join strategy. -/
def pdColumns (strategy : JoinStrategy) (dfs : List DataFrame) : List String :=
  match strategy with
  | .outer => unionCols dfs
  | .inner => interCols dfs

/-- Reindex one row onto the target column list: absent columns become NaN. -/
def alignRow (target : List String) (srcCols : List String) (r : List Cell) : List Cell :=
  target.map (getCell srcCols r)

/-- Line 97: `pd.concat(all_dfs, ignore_index=True, join=join_strategy)` —
rows of every input in supply order, each reindexed onto the combined column
index. -/
def pd_concat (strategy : JoinStrategy) (dfs : List DataFrame) : DataFrame :=
  { columns := pdColumns strategy dfs,
    rows := dfs.flatMap (fun df => df.rows.map (alignRow (pdColumns strategy dfs) df.columns)) }

/-- Lines 77-88, the body of the upload loop for one file: frames and
diagnostics this single input contributes. -/
def fileContribution (file : UploadedFile) : List DataFrame × List Msg :=
  if strEndsWith (strToLower file.name) ".csv" then
    match read_single_csv file.asCsv file.name with
    | (some df, msgs) => ([df], msgs)
    | (none, msgs) => ([], msgs)
  else if strEndsWith (strToLower file.name) ".zip" then
    process_zip_file file.name file.asZip
  else
    ([], [Msg.skippedUnsupported file.name])

/-- All frames that survive parsing, in supply order. -/
def parsedTables (files : List UploadedFile) : List DataFrame :=
  (files.map (fun f => (fileContribution f).1)).flatten

/-- All diagnostics of the upload loop, in emission order. -/
def allMsgs (files : List UploadedFile) : List Msg :=
  (files.map (fun f => (fileContribution f).2)).flatten

/-- Lines 66-99: process every uploaded file in order, then either report
`None` (no table survived) or concatenate under the chosen join strategy. -/
def process_uploaded_files (files : List UploadedFile) (join_strategy : JoinStrategy) :
    Option DataFrame × List Msg :=
  let acc := files.foldl
    (fun acc file =>
      let c := fileContribution file
      (acc.1 ++ c.1, acc.2 ++ c.2))
    ([], [])
  if acc.1.isEmpty then (none, acc.2)
  else (some (pd_concat join_strategy acc.1), acc.2)

/-- Number of NaN cells in column `i` (`df.isnull()` summed down a column). -/
def nullCountAt (rows : List (List Cell)) (i : Nat) : Nat :=
  (rows.filter (fun r => (r.getD i none).isNone)).length

/-- Lines 191-193: indices of the columns kept by the missing-data filter.
`df.isnull().mean()` is `nullCount / rowCount`; the column is kept when that
fraction times 100 is at most the threshold.  On a frame with zero rows the
pandas mean is NaN and `NaN <= t` is false, so every column is dropped — the
`!rows.isEmpty` conjunct reproduces that. -/
def keepIndices (t : Nat) (df : DataFrame) : List Nat :=
  (List.range df.columns.length).filter
    (fun i => !df.rows.isEmpty && decide (nullCountAt df.rows i * 100 ≤ t * df.rows.length))

/-- Lines 188-196: the column-pruning step, guarded by
`if missing_threshold < 100`. -/
def pruneStep (t : Nat) (df : DataFrame) : DataFrame :=
  if t < 100 then
    { columns := (keepIndices t df).map (fun i => df.columns.getD i ""),
      rows := df.rows.map (fun r => (keepIndices t df).map (fun i => r.getD i none)) }
  else df

/-- Lines 202-204: `df.drop_duplicates()` when the checkbox is on — keep the
first occurrence of each full-row value (pandas treats NaN cells as equal
here, as does equality on `Option String`). -/
def dedupStep (remove_duplicates : Bool) (df : DataFrame) : DataFrame :=
  if remove_duplicates then { df with rows := keepFirsts df.rows } else df

/-- Ordering `sort_values` uses on the cells of the sort column: values
compare by the runtime order (string order here), and NaN is placed after
every value (`na_position='last'`), for either direction. -/
def cellLe (asc : Bool) : Cell → Cell → Bool
  | none, none => true
  | none, some _ => false
  | some _, none => true
  | some a, some b => if asc then strLe a b else strLe b a

/-- Row comparison induced by the sort column. -/
def rowLe (cols : List String) (c : String) (asc : Bool) (r1 r2 : List Cell) : Bool :=
  cellLe asc (getCell cols r1 c) (getCell cols r2 c)

/-- Lines 208-212: `df.sort_values(by=sort_col, ascending=sort_ascending)`,
attempted only when a column is selected and still present.  The comparison
is total on string cells, so the `except` branch of the source is
unreachable in this model. -/
def sortStep (c : String) (asc : Bool) (df : DataFrame) : DataFrame :=
  if c ≠ "None" ∧ c ∈ df.columns then
    { df with
      rows := List.insertionSort (fun r1 r2 => rowLe df.columns c asc r1 r2 = true) df.rows }
  else df

/-- Lines 186-212: the display/transform block of `main` — prune columns,
drop duplicates, sort — together with the `st.info` messages it emits.  No
message accompanies a skipped sort: the source only warns when
`sort_values` raises. -/
def mainTransforms (df0 : DataFrame) (remove_duplicates : Bool) (missing_threshold : Nat)
    (sort_col : String) (sort_ascending : Bool) : DataFrame × List Msg :=
  let df1 := pruneStep missing_threshold df0
  let m1 : List Msg :=
    if missing_threshold < 100 ∧ 0 < df0.columns.length - df1.columns.length then
      [Msg.droppedColumns (df0.columns.length - df1.columns.length) missing_threshold]
    else []
  let df2 := dedupStep remove_duplicates df1
  let m2 : List Msg :=
    if remove_duplicates = true ∧ df1.rows.length ≠ df2.rows.length then
      [Msg.removedDuplicates (df1.rows.length - df2.rows.length)]
    else []
  let df3 := sortStep sort_col sort_ascending df2
  (df3, m1 ++ m2)

/-- Does the character list contain `c`? -/
def hasChar (cs : List Char) (c : Char) : Bool :=
  cs.any (fun a => a == c)

/-- Double every quote character (the CSV escape). -/
def doubleQuotes : List Char → List Char
  | [] => []
  | c :: cs => if c == '\"' then c :: c :: doubleQuotes cs else c :: doubleQuotes cs

/-- RFC-4180 quoting used by `to_csv`: quote a field containing the
separator, the quote character or a line break, doubling embedded quotes. -/
def csvField (s : String) : String :=
  if hasChar s.data ',' || hasChar s.data '\"' || hasChar s.data '\x0a' || hasChar s.data '\x0d' then
    "\"" ++ (⟨doubleQuotes s.data⟩ : String) ++ "\""
  else s

/-- A NaN cell serialises to the empty field. -/
def csvCell : Cell → String
  | none => ""
  | some s => csvField s

/-- One serialised CSV line, newline-terminated. -/
def csvLine (fields : List String) : String :=
  String.intercalate "," fields ++ "\x0a"

/-- Modelled from the spec: the exporter's `includeHeader = false` mode —
"the column-name row is omitted entirely", only data rows are serialised.
No such mode exists in the source; this definition follows the spec's words
for comparison with `convert_df_to_csv`. -/
def exportCsvNoHeader (df : DataFrame) : String :=
  String.join (df.rows.map (fun r => csvLine (r.map csvCell)))

/-- Lines 101-106: `df.to_csv(index=False).encode('utf-8')` — header line
followed by the data rows (bytes are modelled as the UTF-8 string). -/
def convert_df_to_csv (df : DataFrame) : String :=
  csvLine (df.columns.map csvField) ++ String.join (df.rows.map (fun r => csvLine (r.map csvCell)))

/-! Concrete tables and uploads used to instantiate the theorems below. -/

/-- A one-row table with columns `X`, `Y`. -/
def exTableXY : DataFrame := ⟨["X", "Y"], [[some "1", some "2"]]⟩

/-- A one-row table with columns `Y`, `Z`. -/
def exTableYZ : DataFrame := ⟨["Y", "Z"], [[some "3", some "4"]]⟩

/-- A two-row one-column table whose first cell is missing. -/
def exTableNull : DataFrame := ⟨["a"], [[none], [some "x"]]⟩

/-- A one-row table whose `b` column is entirely missing. -/
def exTableHole : DataFrame := ⟨["b", "source_file"], [[none, some "f"]]⟩

/-- An upload named `a.csv` that parses to `exTableXY`. -/
def exUploadOk : UploadedFile := ⟨"a.csv", .ok exTableXY, .error "not a zip"⟩

/-- An upload named `b.csv` whose bytes fail to parse. -/
def exUploadBad : UploadedFile := ⟨"b.csv", .error "boom", .error "not a zip"⟩

/-- An upload named `c.zip` whose bytes are not a valid ZIP container. -/
def exUploadBadZip : UploadedFile := ⟨"c.zip", .error "no table", .error "bad magic"⟩

/-! Helper lemmas about lookups, first-seen unions and intersections. -/

theorem lookup_zip_not_mem {c : String} (cols : List String) (r : List Cell)
    (h : c ∉ cols) : List.lookup c (cols.zip r) = none := by
  induction cols generalizing r with
  | nil => rfl
  | cons a cs ih =>
    cases r with
    | nil => rfl
    | cons b rs =>
      have hne : (c == a) = false := beq_false_of_ne (fun hc => h (by simp [hc]))
      rw [List.zip_cons_cons]
      simp only [List.lookup, hne]
      exact ih rs (fun hm => h (List.mem_cons_of_mem a hm))

theorem getCell_not_mem {c : String} (cols : List String) (r : List Cell)
    (h : c ∉ cols) : getCell cols r c = none := by
  simp [getCell, lookup_zip_not_mem cols r h]

theorem lookup_zip_map_self {c : String} (g : String → Cell) (target : List String)
    (h : c ∈ target) : List.lookup c (target.zip (target.map g)) = some (g c) := by
  induction target with
  | nil => cases h
  | cons a ts ih =>
    by_cases hca : c = a
    · subst hca
      simp [List.lookup]
    · have hne : (c == a) = false := beq_false_of_ne hca
      rw [List.map_cons, List.zip_cons_cons]
      simp only [List.lookup, hne]
      exact ih ((List.mem_cons.mp h).resolve_left hca)

theorem getCell_alignRow {c : String} (target srcCols : List String) (r : List Cell)
    (h : c ∈ target) : getCell target (alignRow target srcCols r) c = getCell srcCols r c := by
  simp [getCell, alignRow, lookup_zip_map_self (getCell srcCols r) target h]

theorem unionInto_cons (acc : List String) (x : String) (xs : List String) :
    unionInto acc (x :: xs) = unionInto (if x ∈ acc then acc else acc ++ [x]) xs := rfl

theorem unionInto_append (acc cs ds : List String) :
    unionInto acc (cs ++ ds) = unionInto (unionInto acc cs) ds :=
  List.foldl_append _ _ cs ds

theorem mem_unionInto (cs : List String) (acc : List String) (a : String) :
    a ∈ unionInto acc cs ↔ a ∈ acc ∨ a ∈ cs := by
  induction cs generalizing acc with
  | nil => simp [unionInto]
  | cons x xs ih =>
    rw [unionInto_cons, ih]
    by_cases hx : x ∈ acc
    · rw [if_pos hx]
      constructor
      · rintro (h | h)
        · exact Or.inl h
        · exact Or.inr (List.mem_cons_of_mem x h)
      · rintro (h | h)
        · exact Or.inl h
        · rcases List.mem_cons.mp h with rfl | h
          · exact Or.inl hx
          · exact Or.inr h
    · rw [if_neg hx]
      simp only [List.mem_append, List.mem_singleton, List.mem_cons]
      tauto

theorem keepFirsts_eq_unionInto (xs : List String) : keepFirsts xs = unionInto [] xs := rfl

theorem unionCols_eq_keepFirsts (dfs : List DataFrame) :
    unionCols dfs = keepFirsts ((dfs.map DataFrame.columns).flatten) := by
  suffices h : ∀ acc, dfs.foldl (fun acc df => unionInto acc df.columns) acc
      = unionInto acc ((dfs.map DataFrame.columns).flatten) by
    rw [keepFirsts_eq_unionInto]
    exact h []
  induction dfs with
  | nil => intro acc; rfl
  | cons d ds ih =>
    intro acc
    simp only [List.foldl_cons, List.map_cons, List.flatten_cons]
    rw [unionInto_append]
    exact ih _

theorem mem_unionCols (dfs : List DataFrame) (c : String) :
    c ∈ unionCols dfs ↔ ∃ df ∈ dfs, c ∈ df.columns := by
  rw [unionCols_eq_keepFirsts, keepFirsts_eq_unionInto, mem_unionInto]
  simp [List.mem_flatten]

theorem foldl_inter (rest : List DataFrame) (l : List String) :
    rest.foldl (fun acc df => acc.filter (fun c => df.columns.contains c)) l
      = l.filter (fun c => rest.all (fun df => df.columns.contains c)) := by
  induction rest generalizing l with
  | nil => simp
  | cons d ds ih =>
    simp only [List.foldl_cons]
    rw [ih, List.filter_filter]
    apply List.filter_congr
    intro x _
    simp [Bool.and_comm]

theorem interCols_cons (d : DataFrame) (rest : List DataFrame) :
    interCols (d :: rest)
      = d.columns.filter (fun c => ((d :: rest).all (fun df => df.columns.contains c))) := by
  show rest.foldl _ d.columns = _
  rw [foldl_inter]
  apply List.filter_congr
  intro x hx
  simp only [List.all_cons]
  have : d.columns.contains x = true := by
    simp [List.elem_iff, hx]
  rw [this, Bool.true_and]

theorem mem_interCols (d : DataFrame) (rest : List DataFrame) (c : String) :
    c ∈ interCols (d :: rest) ↔ ∀ df ∈ d :: rest, c ∈ df.columns := by
  rw [interCols_cons]
  simp [List.mem_filter, List.all_eq_true, List.elem_iff]

/-! Helper lemmas about the `source_file` stamp. -/

theorem lookup_zip_setCol {c : String} (v : Cell) (cols : List String) (r : List Cell)
    (hlen : r.length = cols.length) (h : c ∈ cols) :
    List.lookup c (cols.zip (setCol cols c v r)) = some v := by
  induction cols generalizing r with
  | nil => cases h
  | cons a cs ih =>
    cases r with
    | nil => simp at hlen
    | cons b rs =>
      simp only [setCol, List.zip_cons_cons, List.map_cons]
      by_cases hca : c = a
      · subst hca
        simp [List.lookup]
      · have hne : (c == a) = false := beq_false_of_ne hca
        simp only [List.lookup, hne]
        exact ih rs (by simpa using hlen) ((List.mem_cons.mp h).resolve_left hca)

theorem lookup_zip_append_self {c : String} (v : Cell) (cols : List String) (r : List Cell)
    (hlen : r.length = cols.length) (h : c ∉ cols) :
    List.lookup c ((cols ++ [c]).zip (r ++ [v])) = some v := by
  induction cols generalizing r with
  | nil =>
    cases r with
    | nil => simp [List.lookup]
    | cons b rs => simp at hlen
  | cons a cs ih =>
    cases r with
    | nil => simp at hlen
    | cons b rs =>
      have hne : (c == a) = false := beq_false_of_ne (fun hc => h (by simp [hc]))
      simp only [List.cons_append, List.zip_cons_cons, List.lookup, hne]
      exact ih rs (by simpa using hlen) (fun hm => h (List.mem_cons_of_mem a hm))

theorem mem_setColumn_columns (df : DataFrame) (c : String) (v : Cell) :
    c ∈ (setColumn df c v).columns := by
  by_cases hc : c ∈ df.columns
  · rw [setColumn, if_pos hc]
    exact hc
  · rw [setColumn, if_neg hc]
    simp

theorem getCell_setColumn (df : DataFrame) (c : String) (v : Cell) (hwf : WellFormed df) :
    ∀ r ∈ (setColumn df c v).rows, getCell (setColumn df c v).columns r c = v := by
  intro r hr
  by_cases hc : c ∈ df.columns
  · rw [setColumn, if_pos hc] at hr ⊢
    rcases List.mem_map.mp hr with ⟨r0, hr0, rfl⟩
    simp [getCell, lookup_zip_setCol v df.columns r0 (hwf r0 hr0) hc]
  · rw [setColumn, if_neg hc] at hr ⊢
    rcases List.mem_map.mp hr with ⟨r0, hr0, rfl⟩
    simp [getCell, lookup_zip_append_self v df.columns r0 (hwf r0 hr0) hc]

/-! Helper lemmas decomposing the upload loop and the archive loop. -/

theorem parsedTables_cons (f : UploadedFile) (fs : List UploadedFile) :
    parsedTables (f :: fs) = (fileContribution f).1 ++ parsedTables fs := by
  simp [parsedTables]

theorem allMsgs_cons (f : UploadedFile) (fs : List UploadedFile) :
    allMsgs (f :: fs) = (fileContribution f).2 ++ allMsgs fs := by
  simp [allMsgs]

theorem process_foldl (files : List UploadedFile) :
    ∀ acc : List DataFrame × List Msg,
      files.foldl
        (fun acc file =>
          let c := fileContribution file
          (acc.1 ++ c.1, acc.2 ++ c.2)) acc
        = (acc.1 ++ parsedTables files, acc.2 ++ allMsgs files) := by
  induction files with
  | nil =>
    intro acc
    simp [parsedTables, allMsgs]
  | cons f fs ih =>
    intro acc
    simp only [List.foldl_cons]
    rw [ih]
    simp [parsedTables_cons, allMsgs_cons]

theorem process_uploaded_files_eq (files : List UploadedFile) (s : JoinStrategy) :
    process_uploaded_files files s
      = (if parsedTables files = [] then none else some (pd_concat s (parsedTables files)),
         allMsgs files) := by
  rw [process_uploaded_files]
  rw [process_foldl files ([], [])]
  by_cases hp : parsedTables files = []
  · simp [hp]
  · simp [hp, List.isEmpty_iff]

theorem zipStep_ok (zipName : String) (acc : List DataFrame × List Msg) (e : ZipEntry)
    (d : DataFrame) (he : e.asCsv = .ok d) :
    zipStep zipName acc e
      = (acc.1 ++ [setColumn d "source_file" (some (zipName ++ " -> " ++ basename e.filename))],
         acc.2) := by
  simp [zipStep, read_single_csv, he]

theorem zipStep_error (zipName : String) (acc : List DataFrame × List Msg) (e : ZipEntry)
    (err : String) (he : e.asCsv = .error err) :
    zipStep zipName acc e
      = (acc.1,
         acc.2 ++ [Msg.errorReadingFile (zipName ++ " -> " ++ basename e.filename) err]) := by
  simp [zipStep, read_single_csv, he]

theorem zip_foldl (zipName : String) (es : List ZipEntry) :
    ∀ acc : List DataFrame × List Msg,
      (es.foldl (zipStep zipName) acc).1
        = acc.1 ++ es.filterMap (fun e =>
            match e.asCsv with
            | .ok d =>
              some (setColumn d "source_file" (some (zipName ++ " -> " ++ basename e.filename)))
            | .error _ => none) := by
  induction es with
  | nil =>
    intro acc
    simp
  | cons e es ih =>
    intro acc
    simp only [List.foldl_cons, List.filterMap_cons]
    cases he : e.asCsv with
    | ok d =>
      rw [zipStep_ok zipName acc e d he, ih]
      simp [he]
    | error err =>
      rw [zipStep_error zipName acc e err he, ih]

theorem process_zip_file_ok_fst (zipName : String) (entries : List ZipEntry) :
    (process_zip_file zipName (.ok entries)).1
      = (zipCandidates entries).filterMap (fun e =>
          match e.asCsv with
          | .ok d =>
            some (setColumn d "source_file" (some (zipName ++ " -> " ++ basename e.filename)))
          | .error _ => none) := by
  show (if (zipCandidates entries).isEmpty then ([], [Msg.noCsvInZip zipName])
        else (zipCandidates entries).foldl (zipStep zipName) ([], [])).1 = _
  by_cases h : zipCandidates entries = []
  · simp [h]
  · rw [if_neg (by simpa [List.isEmpty_iff] using h)]
    rw [zip_foldl zipName (zipCandidates entries) ([], [])]
    simp

/-! Helper lemmas about the sort ordering. -/

theorem charListLt_irrefl (x : List Char) : charListLt x x = false := by
  induction x with
  | nil => rfl
  | cons a as ih => simp [charListLt, ih]

theorem charListLt_trans (x y z : List Char) (h1 : charListLt x y = true)
    (h2 : charListLt y z = true) : charListLt x z = true := by
  induction x generalizing y z with
  | nil =>
    cases y with
    | nil => simp [charListLt] at h1
    | cons b bs =>
      cases z with
      | nil => simp [charListLt] at h2
      | cons c cs => rfl
  | cons a as ih =>
    cases y with
    | nil => simp [charListLt] at h1
    | cons b bs =>
      cases z with
      | nil => simp [charListLt] at h2
      | cons c cs =>
        simp only [charListLt] at h1 h2 ⊢
        by_cases hab : a.toNat < b.toNat
        · by_cases hbc : b.toNat < c.toNat
          · simp [Nat.lt_trans hab hbc]
          · rw [if_pos hab] at h1
            rw [if_neg hbc] at h2
            by_cases hcb : c.toNat < b.toNat
            · simp [hcb] at h2
            · have hbceq : b.toNat = c.toNat := Nat.le_antisymm (Nat.le_of_not_lt hcb) (Nat.le_of_not_lt hbc)
              simp [hbceq ▸ hab]
        · rw [if_neg hab] at h1
          by_cases hba : b.toNat < a.toNat
          · simp [hba] at h1
          · rw [if_neg hba] at h1
            have habeq : a.toNat = b.toNat := Nat.le_antisymm (Nat.le_of_not_lt hba) (Nat.le_of_not_lt hab)
            by_cases hbc : b.toNat < c.toNat
            · simp [habeq ▸ hbc]
            · rw [if_neg hbc] at h2
              by_cases hcb : c.toNat < b.toNat
              · simp [hcb] at h2
              · rw [if_neg hcb] at h2
                have hbceq : b.toNat = c.toNat := Nat.le_antisymm (Nat.le_of_not_lt hcb) (Nat.le_of_not_lt hbc)
                have hac : ¬ a.toNat < c.toNat := by omega
                have hca : ¬ c.toNat < a.toNat := by omega
                rw [if_neg hac, if_neg hca]
                exact ih bs cs h1 h2

theorem charListLt_connex (x y : List Char) (h1 : charListLt x y = false)
    (h2 : charListLt y x = false) : x = y := by
  induction x generalizing y with
  | nil =>
    cases y with
    | nil => rfl
    | cons b bs => simp [charListLt] at h1
  | cons a as ih =>
    cases y with
    | nil => simp [charListLt] at h2
    | cons b bs =>
      simp only [charListLt] at h1 h2
      by_cases hab : a.toNat < b.toNat
      · simp [hab] at h1
      · by_cases hba : b.toNat < a.toNat
        · simp [hba] at h2
        · rw [if_neg hab, if_neg hba] at h1
          rw [if_neg hba, if_neg hab] at h2
          have habeq : a = b :=
            Char.ext (UInt32.ext (Nat.le_antisymm (Nat.le_of_not_lt hba) (Nat.le_of_not_lt hab)))
          rw [habeq, ih bs h1 h2]

theorem strLe_total (a b : String) : strLe a b = true ∨ strLe b a = true := by
  cases h : charListLt b.data a.data with
  | false => exact Or.inl (by simp [strLe, h])
  | true =>
    right
    cases h2 : charListLt a.data b.data with
    | false => simp [strLe, h2]
    | true =>
      have := charListLt_trans _ _ _ h h2
      rw [charListLt_irrefl] at this
      cases this

theorem strLe_trans (a b c : String) (h1 : strLe a b = true) (h2 : strLe b c = true) :
    strLe a c = true := by
  simp only [strLe, Bool.not_eq_true'] at h1 h2 ⊢
  cases hca : charListLt c.data a.data with
  | false => rfl
  | true =>
    exfalso
    cases hab : charListLt a.data b.data with
    | true =>
      have := charListLt_trans _ _ _ hca hab
      rw [h2] at this
      cases this
    | false =>
      have heq : a.data = b.data := charListLt_connex _ _ hab h1
      rw [heq] at hca
      rw [h2] at hca
      cases hca

theorem cellLe_total (asc : Bool) (x y : Cell) : cellLe asc x y = true ∨ cellLe asc y x = true := by
  cases x with
  | none =>
    cases y with
    | none => exact Or.inl rfl
    | some b => exact Or.inr rfl
  | some a =>
    cases y with
    | none => exact Or.inl rfl
    | some b =>
      cases asc with
      | true => simpa [cellLe] using strLe_total a b
      | false => simpa [cellLe, Or.comm] using strLe_total a b

theorem cellLe_trans (asc : Bool) (x y z : Cell) (h1 : cellLe asc x y = true)
    (h2 : cellLe asc y z = true) : cellLe asc x z = true := by
  cases x with
  | none =>
    cases y with
    | none => exact h2
    | some b =>
      cases h1
  | some a =>
    cases z with
    | none => cases y <;> rfl
    | some c =>
      cases y with
      | none => cases h2
      | some b =>
        cases asc with
        | true => exact strLe_trans a b c h1 h2
        | false => exact strLe_trans c b a h2 h1

/-- Null cells are never `≤` a value cell: they sort after every value. -/
theorem cellLe_none_some (asc : Bool) (s : String) : cellLe asc none (some s) = false := rfl

/-- A value cell is always `≤` a null cell. -/
theorem cellLe_some_none (asc : Bool) (s : String) : cellLe asc (some s) none = true := rfl

/-! The claims. -/

/-- C1: for every upload batch whose successfully parsed tables are
non-empty and for either join strategy, `process_uploaded_files` returns a
combined table whose row count is the sum of the row counts of the parsed
input tables, and whose row list is the concatenation of the inputs' rows in
supply order — each table's block appearing in sequence, its internal row
order preserved, every row merely reindexed onto the combined column set. -/
theorem C1_row_count_and_order (files : List UploadedFile) (strategy : JoinStrategy)
    (h : parsedTables files ≠ []) :
    ∃ df : DataFrame,
      (process_uploaded_files files strategy).1 = some df
      ∧ df.rows.length = ((parsedTables files).map (fun t => t.rows.length)).sum
      ∧ df.rows = ((parsedTables files).map
          (fun t => t.rows.map
            (alignRow (pdColumns strategy (parsedTables files)) t.columns))).flatten := by
  refine ⟨pd_concat strategy (parsedTables files), ?_, ?_, ?_⟩
  · rw [process_uploaded_files_eq, if_neg h]
  · show ((parsedTables files).flatMap _).length = _
    rw [List.length_flatMap]
    congr 1
    apply List.map_congr_left
    intro t _
    simp
  · show (parsedTables files).flatMap _ = _
    rw [List.flatMap_def]

/-- C1 witness: a batch holding the single upload `a.csv`. -/
theorem C1_witness :
    ∃ df : DataFrame,
      (process_uploaded_files [exUploadOk] JoinStrategy.outer).1 = some df
      ∧ df.rows.length = ((parsedTables [exUploadOk]).map (fun t => t.rows.length)).sum
      ∧ df.rows = ((parsedTables [exUploadOk]).map
          (fun t => t.rows.map
            (alignRow (pdColumns JoinStrategy.outer (parsedTables [exUploadOk])) t.columns))).flatten :=
  C1_row_count_and_order [exUploadOk] JoinStrategy.outer (by decide)

/-- C2: under the `outer` (UNION) strategy the combined column list is the
union of the input column lists in first-seen order (the concatenated column
lists with later duplicates removed), membership in it is membership in some
input, and in every combined row each cell of a column the originating table
lacks is null. -/
theorem C2_union_columns (dfs : List DataFrame) (hne : dfs ≠ []) :
    ((pd_concat JoinStrategy.outer dfs).columns
        = keepFirsts ((dfs.map DataFrame.columns).flatten))
    ∧ (∀ c, c ∈ (pd_concat JoinStrategy.outer dfs).columns ↔ ∃ df ∈ dfs, c ∈ df.columns)
    ∧ (∀ r ∈ (pd_concat JoinStrategy.outer dfs).rows,
        ∃ df ∈ dfs, ∃ r0 ∈ df.rows,
          r = alignRow (pd_concat JoinStrategy.outer dfs).columns df.columns r0
          ∧ ∀ c ∈ (pd_concat JoinStrategy.outer dfs).columns, c ∉ df.columns →
              getCell (pd_concat JoinStrategy.outer dfs).columns r c = none) := by
  refine ⟨unionCols_eq_keepFirsts dfs, fun c => mem_unionCols dfs c, ?_⟩
  intro r hr
  rcases List.mem_flatMap.mp hr with ⟨df, hdf, hrow⟩
  rcases List.mem_map.mp hrow with ⟨r0, hr0, rfl⟩
  refine ⟨df, hdf, r0, hr0, rfl, ?_⟩
  intro c hc hcdf
  show getCell (pdColumns JoinStrategy.outer dfs)
      (alignRow (pdColumns JoinStrategy.outer dfs) df.columns r0) c = none
  rw [getCell_alignRow _ _ _ (show c ∈ pdColumns JoinStrategy.outer dfs from hc)]
  exact getCell_not_mem df.columns r0 hcdf

/-- C2 witness: two one-row tables with columns `X,Y` and `Y,Z`. -/
theorem C2_witness :
    "Z" ∈ (pd_concat JoinStrategy.outer [exTableXY, exTableYZ]).columns
      ↔ ∃ df ∈ [exTableXY, exTableYZ], "Z" ∈ df.columns :=
  (C2_union_columns [exTableXY, exTableYZ] (by decide)).2.1 "Z"

/-- C3: under the `inner` (INTERSECTION) strategy the combined column list
is the first input's column list restricted to the columns present in every
input (hence in the first input's order), membership in it is membership in
all inputs, and no combined column is absent from any input. -/
theorem C3_intersection_columns (dfs : List DataFrame) (d : DataFrame) (rest : List DataFrame)
    (h : dfs = d :: rest) :
    ((pd_concat JoinStrategy.inner dfs).columns
        = d.columns.filter (fun c => dfs.all (fun df => df.columns.contains c)))
    ∧ (∀ c, c ∈ (pd_concat JoinStrategy.inner dfs).columns ↔ ∀ df ∈ dfs, c ∈ df.columns)
    ∧ (∀ c ∈ (pd_concat JoinStrategy.inner dfs).columns, ∀ df ∈ dfs, c ∈ df.columns) := by
  subst h
  refine ⟨interCols_cons d rest, fun c => mem_interCols d rest c, ?_⟩
  intro c hc df hdf
  exact (mem_interCols d rest c).mp hc df hdf

/-- C3 witness: the same two tables; only `Y` (and nothing else) is shared. -/
theorem C3_witness :
    "Y" ∈ (pd_concat JoinStrategy.inner [exTableXY, exTableYZ]).columns
      ↔ ∀ df ∈ [exTableXY, exTableYZ], "Y" ∈ df.columns :=
  (C3_intersection_columns [exTableXY, exTableYZ] exTableXY [exTableYZ] rfl).2.1 "Y"

/-- C4: on a table with at least one row, the transform block applies the
missing-data column filter first, then duplicate removal, then the sort;
column `i` survives the filter exactly when its null fraction (times 100) is
at most the threshold — so it is dropped exactly when that percentage
strictly exceeds the threshold; threshold 100 changes nothing, and threshold
0 drops exactly the columns holding at least one null. -/
theorem C4_prune_before_dedup_sort (df : DataFrame) (rd : Bool) (t : Nat) (c : String)
    (asc : Bool) (hrows : 0 < df.rows.length) :
    ((mainTransforms df rd t c asc).1 = sortStep c asc (dedupStep rd (pruneStep t df)))
    ∧ (∀ i, i < df.columns.length →
        (i ∈ keepIndices t df ↔ nullCountAt df.rows i * 100 ≤ t * df.rows.length))
    ∧ (t < 100 →
        (pruneStep t df).columns = (keepIndices t df).map (fun i => df.columns.getD i ""))
    ∧ pruneStep 100 df = df
    ∧ (∀ i, i < df.columns.length →
        (i ∉ keepIndices 0 df ↔ 0 < nullCountAt df.rows i)) := by
  have hne : df.rows.isEmpty = false := by
    cases hr : df.rows with
    | nil => rw [hr] at hrows; simp at hrows
    | cons a l => rfl
  refine ⟨rfl, ?_, ?_, ?_, ?_⟩
  · intro i hi
    simp [keepIndices, List.mem_filter, List.mem_range, hi, hne]
  · intro ht
    rw [pruneStep, if_pos ht]
  · simp [pruneStep]
  · intro i hi
    have h2 : i ∈ keepIndices 0 df ↔ nullCountAt df.rows i * 100 ≤ 0 * df.rows.length := by
      simp [keepIndices, List.mem_filter, List.mem_range, hi, hne]
    rw [h2]
    omega

/-- C4 witness: threshold 100 leaves the two-row table unchanged. -/
theorem C4_witness : pruneStep 100 exTableNull = exTableNull :=
  (C4_prune_before_dedup_sort exTableNull false 100 "None" true (by decide)).2.2.2.1

/-- C5 counterexample: sorting the two-row table on column `a` ascending
puts the null row LAST (`na_position='last'`), not before the non-null
value as the claim states — the claimed output `[[none], [some "x"]]` is not
produced. -/
theorem C5_counterexample :
    (mainTransforms exTableNull false 100 "a" true).1.rows = [[some "x"], [none]]
    ∧ [[some "x"], [none]] ≠ ([[none], [some "x"]] : List (List Cell)) := by
  refine ⟨by decide, by decide⟩

/-- C5 (amended): when a sort column is requested and still present, the
rows become a permutation of the pre-sort rows, sorted (stably in this
model) on that column's value in the requested direction — with null cells
sorting AFTER all non-null values, for either direction. -/
theorem C5_sort_nulls_last (df0 : DataFrame) (rd : Bool) (t : Nat) (c : String) (asc : Bool)
    (h1 : c ≠ "None") (h2 : c ∈ (dedupStep rd (pruneStep t df0)).columns) :
    ((mainTransforms df0 rd t c asc).1.rows).Perm (dedupStep rd (pruneStep t df0)).rows
    ∧ ((mainTransforms df0 rd t c asc).1.rows).Pairwise
        (fun r1 r2 => rowLe (dedupStep rd (pruneStep t df0)).columns c asc r1 r2 = true)
    ∧ (∀ s : String, cellLe asc (some s) none = true ∧ cellLe asc none (some s) = false) := by
  have hrows : (mainTransforms df0 rd t c asc).1.rows
      = List.insertionSort
          (fun r1 r2 => rowLe (dedupStep rd (pruneStep t df0)).columns c asc r1 r2 = true)
          (dedupStep rd (pruneStep t df0)).rows := by
    show (sortStep c asc (dedupStep rd (pruneStep t df0))).rows = _
    rw [sortStep,
      if_pos (⟨h1, h2⟩ : c ≠ "None" ∧ c ∈ (dedupStep rd (pruneStep t df0)).columns)]
  haveI : IsTotal (List Cell)
      (fun r1 r2 => rowLe (dedupStep rd (pruneStep t df0)).columns c asc r1 r2 = true) :=
    ⟨fun r1 r2 => cellLe_total asc _ _⟩
  haveI : IsTrans (List Cell)
      (fun r1 r2 => rowLe (dedupStep rd (pruneStep t df0)).columns c asc r1 r2 = true) :=
    ⟨fun x y z hxy hyz => cellLe_trans asc _ _ _ hxy hyz⟩
  refine ⟨?_, ?_, fun s => ⟨rfl, rfl⟩⟩
  · rw [hrows]
    exact List.perm_insertionSort _ _
  · rw [hrows]
    exact List.sorted_insertionSort _ _

/-- C5 witness: the sort on column `a` permutes the two rows. -/
theorem C5_witness :
    ((mainTransforms exTableNull false 100 "a" true).1.rows).Perm
      (dedupStep false (pruneStep 100 exTableNull)).rows :=
  (C5_sort_nulls_last exTableNull false 100 "a" true (by decide) (by decide)).1

/-- C6 counterexample: with threshold 0 the requested sort column `b` is
pruned away; the sort is skipped and no fatal error occurs, but the ONLY
diagnostic recorded is the column-drop notice — no sort-skip diagnostic is
surfaced, contrary to the claim. -/
theorem C6_counterexample :
    ("b" ∉ (pruneStep 0 exTableHole).columns)
    ∧ (mainTransforms exTableHole false 0 "b" true).2 = [Msg.droppedColumns 1 0]
    ∧ Msg.couldNotSort "b" ∉ (mainTransforms exTableHole false 0 "b" true).2
    ∧ (mainTransforms exTableHole false 0 "b" true).1 = dedupStep false (pruneStep 0 exTableHole) := by
  refine ⟨by decide, by decide, by decide, by decide⟩

/-- C6 (amended): when the requested sort column is no longer present after
pruning, the sort step is skipped and no fatal error is raised, but it is
skipped silently: no diagnostic about the sort is recorded. -/
theorem C6_sort_skipped_silently (df0 : DataFrame) (rd : Bool) (t : Nat) (c : String)
    (asc : Bool) (h : c ∉ (dedupStep rd (pruneStep t df0)).columns) :
    (mainTransforms df0 rd t c asc).1 = dedupStep rd (pruneStep t df0)
    ∧ ∀ col, Msg.couldNotSort col ∉ (mainTransforms df0 rd t c asc).2 := by
  constructor
  · show sortStep c asc (dedupStep rd (pruneStep t df0)) = _
    rw [sortStep, if_neg]
    intro hand
    exact h hand.2
  · intro col hmem
    simp only [mainTransforms] at hmem
    rcases List.mem_append.mp hmem with hm | hm
    · split at hm
      · simp at hm
      · simp at hm
    · split at hm
      · simp at hm
      · simp at hm

/-- C6 witness: requesting a column that never existed skips the sort. -/
theorem C6_witness :
    (mainTransforms exTableHole false 100 "zzz" true).1
      = dedupStep false (pruneStep 100 exTableHole) :=
  (C6_sort_skipped_silently exTableHole false 100 "zzz" true (by decide)).1

/-- C7: the upload loop is compositional — its diagnostics are the
concatenation of every file's own diagnostics and its surviving tables the
concatenation of every file's own tables, so one file's failure never
disturbs the others; a CSV parse failure or a ZIP open failure contributes
zero tables and exactly one recorded diagnostic; and the result is `none`
(the batch never reaches the export stage) exactly when no table at all
survived. -/
theorem C7_per_file_isolation (files : List UploadedFile) (strategy : JoinStrategy) :
    ((process_uploaded_files files strategy).2 = allMsgs files)
    ∧ (allMsgs files = (files.map (fun f => (fileContribution f).2)).flatten)
    ∧ ((process_uploaded_files files strategy).1 = none ↔ parsedTables files = [])
    ∧ (parsedTables files ≠ [] →
        (process_uploaded_files files strategy).1
          = some (pd_concat strategy (parsedTables files)))
    ∧ (∀ (f : UploadedFile) (e : String),
        strEndsWith (strToLower f.name) ".csv" = true → f.asCsv = .error e →
        fileContribution f = ([], [Msg.errorReadingFile f.name e]))
    ∧ (∀ (f : UploadedFile) (e : String),
        strEndsWith (strToLower f.name) ".csv" = false →
        strEndsWith (strToLower f.name) ".zip" = true → f.asZip = .error e →
        fileContribution f = ([], [Msg.badZipFile f.name])) := by
  refine ⟨?_, rfl, ?_, ?_, ?_, ?_⟩
  · rw [process_uploaded_files_eq]
  · rw [process_uploaded_files_eq]
    by_cases hp : parsedTables files = [] <;> simp [hp]
  · intro h
    rw [process_uploaded_files_eq, if_neg h]
  · intro f e hcsv herr
    simp [fileContribution, hcsv, read_single_csv, herr]
  · intro f e hcsv hzip herr
    simp [fileContribution, hcsv, hzip, process_zip_file, herr]

/-- C7 witness: the unparsable upload `b.csv` contributes no table and one
diagnostic. -/
theorem C7_witness :
    fileContribution exUploadBad = ([], [Msg.errorReadingFile "b.csv" "boom"]) :=
  (C7_per_file_isolation [exUploadBad] JoinStrategy.outer).2.2.2.2.1 exUploadBad "boom"
    (by decide) rfl

/-- C8 counterexample: the archive member `DATA.CSV` matches the `.csv`
suffix case-insensitively (as the claim requires) and is not under
`__MACOSX/`, yet the code's case-SENSITIVE `endswith('.csv')` rejects it:
the archive contributes nothing and reports that no CSV was found. -/
theorem C8_counterexample :
    (strEndsWith (strToLower "DATA.CSV") ".csv" = true)
    ∧ (strStartsWith "DATA.CSV" "__MACOSX/" = false)
    ∧ process_zip_file "z.zip" (.ok [⟨"DATA.CSV", .ok exTableXY⟩])
        = ([], [Msg.noCsvInZip "z.zip"]) := by
  refine ⟨by decide, by decide, by decide⟩

/-- C8 (amended): an archive member is passed to the table reader exactly
when its entry name ends with `.csv` CASE-SENSITIVELY and does not begin
with `__MACOSX/`; each selected member that parses is stamped under the
composite name `archive ++ " -> " ++ basename(entry)`, directory components
stripped. -/
theorem C8_candidate_selection (zipName : String) (entries : List ZipEntry) :
    (∀ e, e ∈ zipCandidates entries ↔
        e ∈ entries ∧ strEndsWith e.filename ".csv" = true
          ∧ strStartsWith e.filename "__MACOSX/" = false)
    ∧ ((process_zip_file zipName (.ok entries)).1
        = (zipCandidates entries).filterMap (fun e =>
            match e.asCsv with
            | .ok d => some (setColumn d "source_file"
                (some (zipName ++ " -> " ++ basename e.filename)))
            | .error _ => none)) := by
  refine ⟨?_, process_zip_file_ok_fst zipName entries⟩
  intro e
  simp only [zipCandidates, List.mem_filter, Bool.and_eq_true, Bool.not_eq_true']

/-- C8 witness: a member in a subdirectory is read under its base name. -/
theorem C8_witness :
    (process_zip_file "w.zip" (.ok [⟨"dir/a.csv", .ok exTableXY⟩])).1
      = [setColumn exTableXY "source_file" (some "w.zip -> a.csv")] := by
  rw [(C8_candidate_selection "w.zip" [⟨"dir/a.csv", .ok exTableXY⟩]).2]
  decide

/-- C9 counterexample: the exporter has no `includeHeader` flag — on a
concrete table its output starts with the column-name row and differs from
the spec-modelled header-less serialisation, so no mode of
`convert_df_to_csv` "omits the column-name row entirely". -/
theorem C9_counterexample :
    convert_df_to_csv exTableXY ≠ exportCsvNoHeader exTableXY
    ∧ convert_df_to_csv exTableXY = "X,Y\x0a1,2\x0a"
    ∧ exportCsvNoHeader exTableXY = "1,2\x0a" := by
  refine ⟨by decide, by decide, by decide⟩

/-- C9 (amended): the exporter unconditionally serialises the column-name
row followed by the data rows: its output is the header line prepended to
the header-less serialisation, for every table. -/
theorem C9_header_always_present (df : DataFrame) :
    convert_df_to_csv df = csvLine (df.columns.map csvField) ++ exportCsvNoHeader df := rfl

/-- C10: `read_single_csv` stamps every row of a successfully parsed table
with `source_file = logical name` (overwriting any pre-existing
`source_file` column); a column present in every input survives `pd_concat`
under either strategy — in particular `source_file` survives INTERSECTION
even when the inputs share no data column — and every combined row keeps a
non-null `source_file` value, namely the stamp of the table it came from. -/
theorem C10_source_file_provenance :
    (∀ (df : DataFrame) (name : String), WellFormed df →
      ∃ s : DataFrame,
        read_single_csv (.ok df) name = (some s, [])
        ∧ "source_file" ∈ s.columns
        ∧ ∀ r ∈ s.rows, getCell s.columns r "source_file" = some name)
    ∧ (∀ (strategy : JoinStrategy) (dfs : List DataFrame), dfs ≠ [] →
        (∀ df ∈ dfs, "source_file" ∈ df.columns) →
        "source_file" ∈ (pd_concat strategy dfs).columns)
    ∧ (∀ (strategy : JoinStrategy) (dfs : List DataFrame),
        (∀ df ∈ dfs, ∀ r ∈ df.rows, ∃ name : String,
          getCell df.columns r "source_file" = some name) →
        "source_file" ∈ (pd_concat strategy dfs).columns →
        ∀ r ∈ (pd_concat strategy dfs).rows,
          ∃ name : String,
            getCell (pd_concat strategy dfs).columns r "source_file" = some name) := by
  refine ⟨?_, ?_, ?_⟩
  · intro df name hwf
    exact ⟨setColumn df "source_file" (some name), rfl, mem_setColumn_columns df _ _,
      getCell_setColumn df "source_file" (some name) hwf⟩
  · intro strategy dfs hne hall
    cases dfs with
    | nil => exact absurd rfl hne
    | cons d rest =>
      cases strategy with
      | outer =>
        show "source_file" ∈ unionCols (d :: rest)
        exact (mem_unionCols _ _).mpr
          ⟨d, List.mem_cons_self d rest, hall d (List.mem_cons_self d rest)⟩
      | inner =>
        show "source_file" ∈ interCols (d :: rest)
        exact (mem_interCols d rest _).mpr hall
  · intro strategy dfs hall hmem r hr
    rcases List.mem_flatMap.mp hr with ⟨df, hdf, hrow⟩
    rcases List.mem_map.mp hrow with ⟨r0, hr0, rfl⟩
    rcases hall df hdf r0 hr0 with ⟨name, hname⟩
    refine ⟨name, ?_⟩
    show getCell (pdColumns strategy dfs)
        (alignRow (pdColumns strategy dfs) df.columns r0) "source_file" = some name
    rw [getCell_alignRow _ _ _ (show "source_file" ∈ pdColumns strategy dfs from hmem)]
    exact hname

/-- C10 witness: two stamped tables with no shared data column still share
`source_file` after an INTERSECTION merge. -/
theorem C10_witness :
    "source_file" ∈ (pd_concat JoinStrategy.inner
        [setColumn ⟨["X"], [[some "1"]]⟩ "source_file" (some "a.csv"),
         setColumn ⟨["Z"], [[some "2"]]⟩ "source_file" (some "b.csv")]).columns :=
  C10_source_file_provenance.2.1 JoinStrategy.inner _ (by decide) (by decide)

end CsvCombiner
